import Mathlib

/-! # CodeCall competition backend

A shallow embedding of `mybackend/controller/competition.js` (the request
handlers of `CompetitionController`) together with the document shape declared
in `mybackend/models/Competition.js`, followed by theorems about judge
assignment, pull-request reconciliation and submission approval.

Conventions of the embedding

* A handler is a function from the database contents (and, where it talks to
  the source-control provider, a `World` answering those requests) to an
  `Outcome`: the database afterwards, the provider requests and database writes
  it issued in order, and the `res.json` calls it made in order.
* Mongoose `Number` values are IEEE doubles in the program; they are idealised
  here as exact rationals (`Num`).
* Request ids are well-formed ObjectIds and the database itself never fails, so
  the only exceptions reaching a `catch` block are the ones raised by the
  provider requests, by `new URL`, by reading a property of `undefined`, and by
  writing a second response.
-/

namespace CodeCall

/-! ## Documents -/

/-- MongoDB ObjectId. -/
abbrev ObjectId := Nat

/-- Mongoose `Number`, idealised as an exact rational. -/
abbrev Num := ℚ

/-- The `rewards` sub-document of `competitionSchema`. -/
structure Rewards where
  feature : Num := 0
  bug : Num := 0
  optimization : Num := 0
  security : Num := 0
  deriving DecidableEq, Repr

/-- The `judges` sub-document of `competitionSchema`: `leadJudge` is a single
optional reference, `judges` an array of references. -/
structure Judges where
  leadJudge : Option ObjectId := none
  judges : List ObjectId := []
  deriving DecidableEq, Repr

/-- One element of the `submissions` array of `competitionSchema` (without its
`timestamp`). -/
structure Submission where
  userId : ObjectId
  submissionType : String
  codeLink : String := ""
  approved : Bool := false
  payout : Num := 0
  deriving DecidableEq, Repr

/-- A competition document, with paths `competitionSchema` declares. The paths
no handler below reads or writes (`languages`, `types`, the two dates, `image`,
`websiteLink`, `competitionDetails`, `howToGuide`, `scope`) are left out. The
schema declares `reward` and `rewards`; it declares no `rewardDistribution`, no
`totalEarnings` and no `Features`, `Bugs` or `Optimisations` path. -/
structure Competition where
  _id : ObjectId
  name : String := ""
  description : String := ""
  status : String := "Live"
  reward : Num := 0
  rewards : Rewards := {}
  points : Num := 0
  repositoryLink : String := ""
  judges : Judges := {}
  submissions : List Submission := []
  deriving DecidableEq, Repr

/-- The object `competition.rewardDistribution` would have to be for the payout
formula of `approveSubmission` to be evaluated. -/
structure RewardDistribution where
  feature : Num
  optimization : Num
  bugs : Num
  deriving DecidableEq, Repr

/-- The property read `competition.rewardDistribution` on a document returned by
`Competition.findById`. Mongoose defines property accessors for the paths of the
schema only, and `competitionSchema` declares no `rewardDistribution` path, so
the read evaluates to `undefined` (`none`) whatever the stored document holds. -/
def Competition.rewardDistribution (_competition : Competition) : Option RewardDistribution :=
  none

/-- One element of `user.approvedSubmissions`, as pushed by `approveSubmission`.
The request's `submissionType` may be missing (`none`). -/
structure ApprovedSubmission where
  competitionId : ObjectId
  submissionType : Option String
  payout : Num
  deriving DecidableEq, Repr

/-- Modelled from the spec: the user document of `models/User.js`, which is not
among the sources. The spec gives a unique id and username, `xp`,
`totalEarnings` and the ordered `approvedSubmissions`; `Features`, `Bugs` and
`Optimisations` are the further paths `approveAndMergePR` increments on a user
document. -/
structure User where
  _id : ObjectId
  username : String
  xp : Num := 0
  totalEarnings : Num := 0
  Features : Num := 0
  Bugs : Num := 0
  Optimisations : Num := 0
  approvedSubmissions : List ApprovedSubmission := []
  deriving DecidableEq, Repr

/-- The two collections the handlers work on, each in collection order. -/
structure Db where
  competitions : List Competition := []
  users : List User := []
  deriving DecidableEq, Repr

/-! ## Database operations -/

/-- Replace the first element satisfying `p`. -/
def replaceFirst {α : Type} (p : α → Bool) (a : α) : List α → List α
  | [] => []
  | x :: xs => if p x then a :: xs else x :: replaceFirst p a xs

/-- `Competition.findById(id)`. -/
def Competition.findById (db : Db) (id : ObjectId) : Option Competition :=
  db.competitions.find? (fun c => c._id == id)

/-- `User.findOne({ username })`. -/
def User.findOne (db : Db) (username : String) : Option User :=
  db.users.find? (fun u => u.username == username)

/-- `competition.save()`: the stored document with this `_id` is replaced. -/
def Competition.save (db : Db) (competition : Competition) : Db :=
  { db with competitions := replaceFirst (fun c => c._id == competition._id) competition db.competitions }

/-- `user.save()`: the stored document with this `_id` is replaced. -/
def User.save (db : Db) (user : User) : Db :=
  { db with users := replaceFirst (fun u => u._id == user._id) user db.users }

/-- `.sort({ xp: -1 })`: descending by xp. MongoDB leaves the order of equal keys
open; here equal keys keep their collection order. -/
def sortByXpDesc (users : List User) : List User :=
  users.insertionSort (fun a b => b.xp ≤ a.xp)

/-- `User.find({ _id: { $in: ids } }).sort({ xp: -1 })`. -/
def User.findSortedByXp (db : Db) (ids : List ObjectId) : List User :=
  sortByXpDesc (db.users.filter (fun u => ids.contains u._id))

/-- An update document: the entries of its `$inc` operator in written order;
`{}` is the empty list. -/
structure UpdateData where
  inc : List (String × Num) := []
  deriving DecidableEq, Repr

/-- `$inc` of one path of a user document. -/
def User.incPath (u : User) (entry : String × Num) : User :=
  if entry.1 = "totalEarnings" then { u with totalEarnings := u.totalEarnings + entry.2 }
  else if entry.1 = "Features" then { u with Features := u.Features + entry.2 }
  else if entry.1 = "Bugs" then { u with Bugs := u.Bugs + entry.2 }
  else if entry.1 = "Optimisations" then { u with Optimisations := u.Optimisations + entry.2 }
  else u

/-- An update document applied to one user document. -/
def User.applyUpdate (u : User) (update : UpdateData) : User :=
  update.inc.foldl User.incPath u

/-- `User.findByIdAndUpdate(id, update)`. -/
def User.findByIdAndUpdate (db : Db) (id : ObjectId) (update : UpdateData) : Db :=
  match db.users.find? (fun u => u._id == id) with
  | none => db
  | some u => { db with users := replaceFirst (fun v => v._id == id) (u.applyUpdate update) db.users }

/-! ## The source-control provider and the HTTP response -/

/-- A label of a pull request. -/
structure Label where
  name : String
  deriving DecidableEq, Repr

/-- The part of `prResponse.data` that is read: `labels` and `user.login`. -/
structure PullRequest where
  labels : List Label
  login : String
  deriving DecidableEq, Repr

/-- What lies outside the program: the URL constructor and the three provider
endpoints. `Except.error msg` stands for a thrown error with that message. -/
structure World where
  pathname : String → Except String String
  getPull : String → String → Except String PullRequest
  mergePull : String → String → Except String Unit
  putMembership : String → Except String Unit

/-- Provider requests and database writes, as issued. -/
inductive Call
  | getPull (repoUrl prNumber : String)
  | mergePull (repoUrl prNumber : String)
  | putMembership (username : String)
  | saveCompetition (competition : Competition)
  | saveUser (user : User)
  | updateUser (id : ObjectId) (update : UpdateData)
  deriving DecidableEq, Repr

/-- JSON bodies the handlers send. -/
inductive Body
  | message (text : String)
  | competition (competition : Competition)
  | ok (competition : Option Competition) (leadJudge : Option User) (judges : List User)
  | approved (text : String) (payout : Num)
  deriving DecidableEq, Repr

/-- One `res.json` call: the status code in effect and the body. -/
structure Response where
  status : Nat
  body : Body
  deriving DecidableEq, Repr

/-- The Express response object: the status code set so far and every
`res.json` call made on it, in order. -/
structure Res where
  statusCode : Nat := 200
  calls : List Response := []
  deriving DecidableEq, Repr

/-- `res.status(code)`. -/
def Res.status (res : Res) (code : Nat) : Res :=
  { res with statusCode := code }

/-- The message of the error Express throws on a second write. -/
def headersSent : String := "Cannot set headers after they are sent to the client"

/-- `res.json(body)`: the call is recorded; only the first one on a response
object is written to the client, a later one throws (`true` in the second
component). -/
def Res.json (res : Res) (body : Body) : Res × Bool :=
  ({ res with calls := res.calls ++ [⟨res.statusCode, body⟩] }, !res.calls.isEmpty)

/-- What a handler leaves behind. -/
structure Outcome where
  db : Db
  trace : List Call
  responses : List Response
  deriving DecidableEq, Repr

/-- The outcome of a handler that made a single `res.json` call. -/
def reply (db : Db) (trace : List Call) (status : Nat) (body : Body) : Outcome :=
  ⟨db, trace, [⟨status, body⟩]⟩

/-! ## Handlers -/

/-- `populate`: the user documents an array of references resolves to. -/
def populateJudges (db : Db) (ids : List ObjectId) : List User :=
  ids.filterMap (fun id => db.users.find? (fun u => u._id == id))

/-- `selectedCompetition` (lines 42-64). The `if (!competition)` block sends the
404 and does not return, so control reaches `return res.json(...)` of line 55;
when that call throws, the `catch` block calls `res.status(500).json(...)`. The
second component tells whether that last call throws too, in which case the
error leaves the handler uncaught. -/
def selectedCompetition (db : Db) (id : ObjectId) : Outcome × Bool :=
  let competition := Competition.findById db id
  let res : Res := {}
  let res :=
    if competition.isNone then
      ((res.status 404).json (.message "Competition not found")).1
    else res
  let sent := res.json
    (.ok competition
      ((competition.bind (fun c => c.judges.leadJudge)).bind
        (fun l => db.users.find? (fun u => u._id == l)))
      (populateJudges db ((competition.map (fun c => c.judges.judges)).getD [])))
  if sent.2 then
    let caught := (sent.1.status 500).json (.message headersSent)
    (⟨db, [], caught.1.calls⟩, caught.2)
  else
    (⟨db, [], sent.1.calls⟩, false)

/-- Lines 93-101 of `addJudge`: recompute the lead judge from the judges that
exist as users, save, answer 200. -/
def recomputeLeadAndSave (db : Db) (competition : Competition) : Outcome :=
  let allJudges := User.findSortedByXp db competition.judges.judges
  let competition :=
    match allJudges with
    | [] => competition
    | first :: _ =>
      { competition with judges := { competition.judges with leadJudge := some first._id } }
  ⟨Competition.save db competition, [.saveCompetition competition], [⟨200, .competition competition⟩]⟩

/-- `addJudge` (lines 67-106); `type` is `req.body.type`, possibly missing. -/
def addJudge (db : Db) (id : ObjectId) (username : String) (type : Option String) : Outcome :=
  match Competition.findById db id with
  | none => reply db [] 404 (.message "Competition not found")
  | some competition =>
    match User.findOne db username with
    | none => reply db [] 404 (.message "User not found")
    | some user =>
      if type = some "judge" then
        let isJudge := competition.judges.judges.any (fun judge => judge == user._id)
        let isLeadJudge := competition.judges.leadJudge == some user._id
        if isJudge || isLeadJudge then
          reply db [] 400 (.message "User is already a judge or lead judge")
        else
          recomputeLeadAndSave db
            { competition with
              judges := { competition.judges with judges := competition.judges.judges ++ [user._id] } }
      else
        recomputeLeadAndSave db competition

/-- `makeJudge` (lines 109-161). -/
def makeJudge (w : World) (db : Db) (id : ObjectId) (username : String) : Outcome :=
  match Competition.findById db id with
  | none => reply db [] 404 (.message "Competition not found")
  | some competition =>
    match User.findOne db username with
    | none => reply db [] 404 (.message "User not found")
    | some user =>
      let isJudge := competition.judges.judges.any (fun judge => judge == user._id)
      let isLeadJudge := competition.judges.leadJudge == some user._id
      if isJudge || isLeadJudge then
        reply db [] 400 (.message "User is already a reviewer or lead reviewer")
      else
        let competition : Competition :=
          { competition with
            judges := { competition.judges with judges := competition.judges.judges ++ [user._id] } }
        let db := Competition.save db competition
        match w.putMembership username with
        | .error msg =>
          reply db [.saveCompetition competition, .putMembership username] 500 (.message msg)
        | .ok _ =>
          reply db [.saveCompetition competition, .putMembership username] 200 (.competition competition)

/-- `String.prototype.toLowerCase`, on the ASCII letters. The four keys compared
against are ASCII words without `k`, and no character outside ASCII lower-cases
to one of their letters, so the comparisons below come out as in the program. -/
def toLowerCase (s : String) : String :=
  ⟨s.data.map Char.toLower⟩

/-- `labels.some(label => label.name.toLowerCase() === key)`. -/
def hasLabel (labels : List Label) (key : String) : Bool :=
  labels.any (fun label => toLowerCase label.name == key)

/-- The four reward classes, named after the label each one is matched by. -/
inductive LabelClass
  | feature
  | bug
  | optimization
  | security
  deriving DecidableEq, Repr

/-- The literal each class is compared with. -/
def LabelClass.key : LabelClass → String
  | .feature => "feature"
  | .bug => "bug"
  | .optimization => "optimization"
  | .security => "security"

/-- The conditions of the `if` / `else if` chain of lines 190-199, in order: the
branch that is taken, `none` when the chain falls through. -/
def matchedClass (labels : List Label) : Option LabelClass :=
  if hasLabel labels "feature" then some .feature
  else if hasLabel labels "bug" then some .bug
  else if hasLabel labels "optimization" then some .optimization
  else if hasLabel labels "security" then some .security
  else none

/-- Lines 187-202 of `approveAndMergePR`: the pair `(reward, updateData)` the
taken branch assigns; `(0, {})` are the initial values. -/
def classification (competition : Competition) (labels : List Label) : Num × UpdateData :=
  match matchedClass labels with
  | some .feature =>
    (competition.rewards.feature,
      ⟨[("totalEarnings", competition.rewards.feature), ("Features", 1)]⟩)
  | some .bug =>
    (competition.rewards.bug,
      ⟨[("totalEarnings", competition.rewards.bug), ("Bugs", 1)]⟩)
  | some .optimization =>
    (competition.rewards.optimization,
      ⟨[("totalEarnings", competition.rewards.optimization), ("Optimisations", 1)]⟩)
  | some .security =>
    (competition.rewards.security,
      ⟨[("totalEarnings", competition.rewards.security)]⟩)
  | none =>
    (0, ⟨[]⟩)

/-- `approveAndMergePR` (lines 163-221); `prNumber` is `req.body.prNumber` as it
is spliced into the request paths. -/
def approveAndMergePR (w : World) (db : Db) (id : ObjectId) (prNumber : String) : Outcome :=
  match Competition.findById db id with
  | none => reply db [] 404 (.message "Project not found")
  | some competition =>
    match w.pathname competition.repositoryLink with
    | .error msg => reply db [] 500 (.message msg)
    | .ok pathname =>
      let repoUrl := pathname.drop 1
      match w.getPull repoUrl prNumber with
      | .error msg => reply db [.getPull repoUrl prNumber] 500 (.message msg)
      | .ok pr =>
        match User.findOne db pr.login with
        | none => reply db [.getPull repoUrl prNumber] 404 (.message "User not found")
        | some user =>
          let updateData := (classification competition pr.labels).2
          match w.mergePull repoUrl prNumber with
          | .error msg =>
            reply db [.getPull repoUrl prNumber, .mergePull repoUrl prNumber] 500 (.message msg)
          | .ok _ =>
            reply (User.findByIdAndUpdate db user._id updateData)
              [.getPull repoUrl prNumber, .mergePull repoUrl prNumber,
                .updateUser user._id updateData]
              200 (.message "PR merged and user earnings updated")

/-- `updateCompetitionStatus` (lines 223-241). -/
def updateCompetitionStatus (db : Db) (id : ObjectId) (status : String) : Outcome :=
  match Competition.findById db id with
  | none => reply db [] 404 (.message "Competition not found")
  | some competition =>
    let competition := { competition with status := status }
    reply (Competition.save db competition) [.saveCompetition competition] 200
      (.competition competition)

/-- The message of the TypeError raised by reading a property of `undefined`. -/
def undefinedRead (property : String) : String :=
  "Cannot read properties of undefined (reading " ++ property ++ ")"

/-- Lines 255-263 of `approveSubmission`: the payout, or the error thrown while
computing it; `distribution` is what the read `competition.rewardDistribution`
evaluates to. -/
def payout (competition : Competition) (distribution : Option RewardDistribution)
    (submissionType : Option String) : Except String Num :=
  if submissionType = some "Feature" then
    match distribution with
    | none => .error (undefinedRead "feature")
    | some distribution => .ok ((competition.reward * distribution.feature) / 100)
  else if submissionType = some "Optimization" then
    match distribution with
    | none => .error (undefinedRead "optimization")
    | some distribution => .ok ((competition.reward * distribution.optimization) / 100)
  else if submissionType = some "Bug" then
    match distribution with
    | none => .error (undefinedRead "bugs")
    | some distribution => .ok ((competition.reward * distribution.bugs) / 100)
  else
    .ok 0

/-- `approveSubmission` (lines 243-280). -/
def approveSubmission (db : Db) (id : ObjectId) (username : String)
    (submissionType : Option String) : Outcome :=
  match Competition.findById db id, User.findOne db username with
  | some competition, some user =>
    match payout competition competition.rewardDistribution submissionType with
    | .error msg => reply db [] 500 (.message msg)
    | .ok payout =>
      let user : User :=
        { user with
          totalEarnings := user.totalEarnings + payout
          approvedSubmissions :=
            user.approvedSubmissions ++ [⟨competition._id, submissionType, payout⟩] }
      reply (User.save db user) [.saveUser user] 200 (.approved "Submission approved" payout)
  | _, _ => reply db [] 404 (.message "Competition or user not found")

/-! ## The classification as the spec words it -/

/-- The precedence order of the spec. -/
def precedence : List LabelClass :=
  [.feature, .bug, .optimization, .security]

/-- The class as the spec words it: the first class in precedence order whose
key equals the lower-cased name of some label; `none` when there is none. -/
def specClass (names : List String) : Option LabelClass :=
  precedence.find? (fun k => decide (k.key ∈ names.map toLowerCase))

/-- The reward of a class: `competition.rewards.<class>`, and 0 for no class. -/
def classReward (competition : Competition) : Option LabelClass → Num
  | some .feature => competition.rewards.feature
  | some .bug => competition.rewards.bug
  | some .optimization => competition.rewards.optimization
  | some .security => competition.rewards.security
  | none => 0

/-- The counters, among `Features`, `Bugs` and `Optimisations`, an update
document increments, with the amounts. -/
def classCounters (update : UpdateData) : List (String × Num) :=
  update.inc.filter (fun e => e.1 = "Features" ∨ e.1 = "Bugs" ∨ e.1 = "Optimisations")

/-- Whether a call is a merge request. -/
def Call.isMerge : Call → Bool
  | .mergePull _ _ => true
  | _ => false

/-- The sum of the payouts in an approved-submissions history. -/
def payoutSum (history : List ApprovedSubmission) : Num :=
  (history.map (fun e => e.payout)).sum

/-! ## The lead-judge invariant -/

/-- The xp of the user a reference resolves to, `none` for a dangling reference. -/
def xpOf (db : Db) (id : ObjectId) : Option Num :=
  (db.users.find? (fun u => u._id == id)).map (fun u => u.xp)

/-- The invariant of the data model: `leadJudge` is absent, or it is a member of
`judges.judges` whose xp is at least the xp of every member of `judges.judges`. -/
def leadJudgeInv (db : Db) (competition : Competition) : Bool :=
  match competition.judges.leadJudge with
  | none => true
  | some lead =>
    competition.judges.judges.contains lead &&
      match xpOf db lead with
      | none => false
      | some leadXp =>
        competition.judges.judges.all (fun judge =>
          match xpOf db judge with
          | none => true
          | some x => decide (x ≤ leadXp))

/-- The relation `.sort({ xp: -1 })` orders by. -/
def xpDesc (a b : User) : Prop := b.xp ≤ a.xp

instance : DecidableRel xpDesc := fun a b => inferInstanceAs (Decidable (b.xp ≤ a.xp))

instance : IsTotal User xpDesc := ⟨fun a b => le_total b.xp a.xp⟩

instance : IsTrans User xpDesc := ⟨fun _ _ _ hab hbc => le_trans hbc hab⟩

/-! ## Example data -/

/-- A user with xp 10. -/
def amy : User := { _id := 10, username := "amy", xp := 10 }

/-- A user with xp 20. -/
def bob : User := { _id := 11, username := "bob", xp := 20 }

/-- A competition judged by amy alone, who leads it. -/
def soloCompetition : Competition :=
  { _id := 1, reward := 200, rewards := { feature := 50 },
    repositoryLink := "https://github.com/org/repo", judges := ⟨some 10, [10]⟩ }

/-- The database holding `soloCompetition`, amy and bob. -/
def soloDb : Db := ⟨[soloCompetition], [amy, bob]⟩

/-- The same competition once bob is a judge too and amy still leads. -/
def pairCompetition : Competition :=
  { soloCompetition with judges := ⟨some 10, [10, 11]⟩ }

/-- The database holding `pairCompetition`, amy and bob. -/
def pairDb : Db := ⟨[pairCompetition], [amy, bob]⟩

/-- A provider that answers every request: the pull request was opened by bob
and carries the single label `Feature`. -/
def featureWorld : World :=
  ⟨fun _ => .ok "/org/repo", fun _ _ => .ok ⟨[⟨"Feature"⟩], "bob"⟩, fun _ _ => .ok (),
    fun _ => .ok ()⟩

/-- A provider like `featureWorld` whose merge endpoint refuses. -/
def refusingWorld : World :=
  { featureWorld with mergePull := fun _ _ => .error "Pull Request is not mergeable" }

/-! ## Lemmas -/

theorem replaceFirst_find_self {α : Type} (p : α → Bool) (a : α) (l : List α)
    (h : l.find? p = some a) : replaceFirst p a l = l := by
  induction l with
  | nil => simp at h
  | cons x xs ih =>
    by_cases hx : p x = true
    · simp only [List.find?, hx, Option.some.injEq] at h
      subst h
      simp [replaceFirst, hx]
    · simp only [Bool.not_eq_true] at hx
      simp only [List.find?, hx] at h
      simp [replaceFirst, hx, ih h]

theorem find_replaceFirst {α : Type} (p : α → Bool) (a b : α) (l : List α)
    (h : l.find? p = some b) (ha : p a = true) : (replaceFirst p a l).find? p = some a := by
  induction l with
  | nil => simp at h
  | cons x xs ih =>
    by_cases hx : p x = true
    · simp [replaceFirst, hx, ha]
    · simp only [Bool.not_eq_true] at hx
      simp only [List.find?, hx] at h
      simp [replaceFirst, hx, ih h]

theorem mem_replaceFirst_of_ne {α : Type} (p : α → Bool) (a x : α) (l : List α)
    (hx : x ∈ l) (hp : p x = false) : x ∈ replaceFirst p a l := by
  induction l with
  | nil => simp at hx
  | cons y ys ih =>
    by_cases hy : p y = true
    · have hne : x ≠ y := by
        rintro rfl
        simp [hp] at hy
      have hxs : x ∈ ys := by
        rcases List.mem_cons.1 hx with h | h
        · exact absurd h hne
        · exact h
      simp [replaceFirst, hy, hxs]
    · simp only [Bool.not_eq_true] at hy
      rcases List.mem_cons.1 hx with h | h
      · simp [replaceFirst, hy, h]
      · simp [replaceFirst, hy, ih h]

theorem findById_id (db : Db) (id : ObjectId) (c : Competition)
    (h : Competition.findById db id = some c) : c._id = id := by
  have := List.find?_some h
  simpa using this

theorem findById_save (db : Db) (id : ObjectId) (c c0 : Competition)
    (h : Competition.findById db id = some c) (hid : c0._id = c._id) :
    Competition.findById (Competition.save db c0) id = some c0 := by
  have hc := findById_id db id c h
  unfold Competition.findById Competition.save
  simp only
  rw [hid, hc]
  exact find_replaceFirst _ c0 c db.competitions h (by simp [hid, hc])

theorem sortByXpDesc_eq (users : List User) : sortByXpDesc users = users.insertionSort xpDesc :=
  rfl

theorem mem_sortByXpDesc (users : List User) (u : User) : u ∈ sortByXpDesc users ↔ u ∈ users := by
  rw [sortByXpDesc_eq]
  exact (List.perm_insertionSort xpDesc users).mem_iff

theorem head_sortByXpDesc_max (users : List User) (first : User) (rest : List User)
    (h : sortByXpDesc users = first :: rest) : ∀ u ∈ users, u.xp ≤ first.xp := by
  intro u hu
  have hs : (first :: rest).Sorted xpDesc := by
    rw [← h, sortByXpDesc_eq]
    exact List.sorted_insertionSort xpDesc users
  have hm : u ∈ first :: rest := by
    rw [← h]
    exact (mem_sortByXpDesc users u).2 hu
  rcases List.mem_cons.1 hm with rfl | hr
  · exact le_refl _
  · exact List.rel_of_sorted_cons hs u hr

theorem mem_findSortedByXp (db : Db) (ids : List ObjectId) (u : User) :
    u ∈ User.findSortedByXp db ids ↔ u ∈ db.users ∧ u._id ∈ ids := by
  unfold User.findSortedByXp
  rw [mem_sortByXpDesc]
  simp [List.mem_filter]

theorem findOne_mem (db : Db) (username : String) (user : User)
    (h : User.findOne db username = some user) : user ∈ db.users :=
  List.mem_of_find?_eq_some h


theorem hasLabel_iff (labels : List Label) (key : String) :
    hasLabel labels key = decide (key ∈ (labels.map (fun l => l.name)).map toLowerCase) := by
  rw [Bool.eq_iff_iff]
  simp only [hasLabel, List.any_eq_true, beq_iff_eq, decide_eq_true_eq, List.mem_map]
  constructor
  · rintro ⟨l, hl, rfl⟩
    exact ⟨l.name, ⟨l, hl, rfl⟩, rfl⟩
  · rintro ⟨n, ⟨l, hl, rfl⟩, rfl⟩
    exact ⟨l, hl, rfl⟩

theorem matchedClass_eq_specClass (labels : List Label) :
    matchedClass labels = specClass (labels.map (fun l => l.name)) := by
  simp only [matchedClass, specClass, precedence, hasLabel_iff, List.find?, LabelClass.key]
  generalize (labels.map (fun l => l.name)).map toLowerCase = names
  by_cases h1 : "feature" ∈ names <;> by_cases h2 : "bug" ∈ names <;>
    by_cases h3 : "optimization" ∈ names <;> by_cases h4 : "security" ∈ names <;>
    simp [h1, h2, h3, h4]

theorem specClass_congr (names names' : List String)
    (h : ∀ n, n ∈ names ↔ n ∈ names') : specClass names' = specClass names := by
  have hm : ∀ key, key ∈ names'.map toLowerCase ↔ key ∈ names.map toLowerCase := by
    intro key
    simp only [List.mem_map]
    constructor
    · rintro ⟨n, hn, rfl⟩
      exact ⟨n, (h n).2 hn, rfl⟩
    · rintro ⟨n, hn, rfl⟩
      exact ⟨n, (h n).1 hn, rfl⟩
  simp only [specClass, hm]

theorem matchedClass_eq_some_iff (labels : List Label) (k : LabelClass) :
    matchedClass labels = some k ↔
      (k.key ∈ (labels.map (fun l => l.name)).map toLowerCase
        ∧ ∀ k0 ∈ precedence.takeWhile (fun k0 => k0 ≠ k),
            k0.key ∉ (labels.map (fun l => l.name)).map toLowerCase) := by
  simp only [matchedClass, hasLabel_iff, precedence]
  generalize (labels.map (fun l => l.name)).map toLowerCase = names
  have t1 : List.takeWhile (fun k0 => decide (k0 ≠ LabelClass.feature))
      [LabelClass.feature, .bug, .optimization, .security] = [] := by decide
  have t2 : List.takeWhile (fun k0 => decide (k0 ≠ LabelClass.bug))
      [LabelClass.feature, .bug, .optimization, .security] = [.feature] := by decide
  have t3 : List.takeWhile (fun k0 => decide (k0 ≠ LabelClass.optimization))
      [LabelClass.feature, .bug, .optimization, .security] = [.feature, .bug] := by decide
  have t4 : List.takeWhile (fun k0 => decide (k0 ≠ LabelClass.security))
      [LabelClass.feature, .bug, .optimization, .security] = [.feature, .bug, .optimization] := by
    decide
  cases k
  · rw [t1]
    by_cases h1 : "feature" ∈ names <;> by_cases h2 : "bug" ∈ names <;>
      by_cases h3 : "optimization" ∈ names <;> by_cases h4 : "security" ∈ names <;>
      simp [h1, h2, h3, h4, LabelClass.key]
  · rw [t2]
    by_cases h1 : "feature" ∈ names <;> by_cases h2 : "bug" ∈ names <;>
      by_cases h3 : "optimization" ∈ names <;> by_cases h4 : "security" ∈ names <;>
      simp [h1, h2, h3, h4, LabelClass.key]
  · rw [t3]
    by_cases h1 : "feature" ∈ names <;> by_cases h2 : "bug" ∈ names <;>
      by_cases h3 : "optimization" ∈ names <;> by_cases h4 : "security" ∈ names <;>
      simp [h1, h2, h3, h4, LabelClass.key]
  · rw [t4]
    by_cases h1 : "feature" ∈ names <;> by_cases h2 : "bug" ∈ names <;>
      by_cases h3 : "optimization" ∈ names <;> by_cases h4 : "security" ∈ names <;>
      simp [h1, h2, h3, h4, LabelClass.key]

theorem matchedClass_eq_none_iff (labels : List Label) :
    matchedClass labels = none ↔
      ∀ k : LabelClass, k.key ∉ (labels.map (fun l => l.name)).map toLowerCase := by
  simp only [matchedClass, hasLabel_iff]
  generalize (labels.map (fun l => l.name)).map toLowerCase = names
  constructor
  · intro h k
    by_cases h1 : "feature" ∈ names
    · simp [h1] at h
    by_cases h2 : "bug" ∈ names
    · simp [h1, h2] at h
    by_cases h3 : "optimization" ∈ names
    · simp [h1, h2, h3] at h
    by_cases h4 : "security" ∈ names
    · simp [h1, h2, h3, h4] at h
    cases k
    · exact h1
    · exact h2
    · exact h3
    · exact h4
  · intro h
    have h1 := h .feature
    have h2 := h .bug
    have h3 := h .optimization
    have h4 := h .security
    simp only [LabelClass.key] at h1 h2 h3 h4
    simp [h1, h2, h3, h4]

theorem find_id_of_mem (users : List User) (u : User)
    (hnd : (users.map (fun v => v._id)).Nodup) (hu : u ∈ users) :
    users.find? (fun v => v._id == u._id) = some u := by
  induction users with
  | nil => simp at hu
  | cons x xs ih =>
    simp only [List.map_cons, List.nodup_cons] at hnd
    rcases List.mem_cons.1 hu with rfl | h
    · simp
    · have hne : x._id ≠ u._id := by
        intro e
        exact hnd.1 (e ▸ List.mem_map_of_mem (fun v => v._id) h)
      have hb : (x._id == u._id) = false := by simpa using hne
      simp only [List.find?, hb]
      exact ih hnd.2 h

theorem findByIdAndUpdate_empty (db : Db) (id : ObjectId) :
    User.findByIdAndUpdate db id ⟨[]⟩ = db := by
  unfold User.findByIdAndUpdate
  cases h : db.users.find? (fun u => u._id == id) with
  | none => rfl
  | some u =>
    simp only [User.applyUpdate, List.foldl_nil]
    rw [replaceFirst_find_self _ u db.users h]

theorem applyUpdate_classification (competition : Competition) (labels : List Label)
    (u : User) :
    (u.applyUpdate (classification competition labels).2).totalEarnings =
        u.totalEarnings + (classification competition labels).1
    ∧ (u.applyUpdate (classification competition labels).2).Features =
        u.Features + (if matchedClass labels = some .feature then 1 else 0)
    ∧ (u.applyUpdate (classification competition labels).2).Bugs =
        u.Bugs + (if matchedClass labels = some .bug then 1 else 0)
    ∧ (u.applyUpdate (classification competition labels).2).Optimisations =
        u.Optimisations + (if matchedClass labels = some .optimization then 1 else 0)
    ∧ (u.applyUpdate (classification competition labels).2)._id = u._id
    ∧ (u.applyUpdate (classification competition labels).2).username = u.username
    ∧ (u.applyUpdate (classification competition labels).2).xp = u.xp
    ∧ (u.applyUpdate (classification competition labels).2).approvedSubmissions =
        u.approvedSubmissions := by
  unfold classification
  cases matchedClass labels with
  | none => simp [User.applyUpdate]
  | some k => cases k <;> simp [User.applyUpdate, User.incPath]

/-! ## Theorems -/

/-- C4: the branch taken by the label chain of `approveAndMergePR` is the first
of feature, bug, optimization, security whose key equals the lower-cased name of
some label and none when no label matches; it and the pair computed from it
depend on the set of label names only, not on order or multiplicity; the reward
is `competition.rewards.<class>` for a matched class and 0 for none; and the
three examples of the spec classify as bug, feature and none with reward 0. -/
theorem classification_by_precedence (competition : Competition) (labels : List Label) :
    matchedClass labels = specClass (labels.map (fun l => l.name))
    ∧ (∀ k, matchedClass labels = some k ↔
        (k.key ∈ (labels.map (fun l => l.name)).map toLowerCase
          ∧ ∀ k0 ∈ precedence.takeWhile (fun k0 => k0 ≠ k),
              k0.key ∉ (labels.map (fun l => l.name)).map toLowerCase))
    ∧ (matchedClass labels = none ↔
        ∀ k : LabelClass, k.key ∉ (labels.map (fun l => l.name)).map toLowerCase)
    ∧ (∀ labels0 : List Label,
        (∀ n, n ∈ labels.map (fun l => l.name) ↔ n ∈ labels0.map (fun l => l.name)) →
          matchedClass labels0 = matchedClass labels
          ∧ classification competition labels0 = classification competition labels)
    ∧ (classification competition labels).1 = classReward competition (matchedClass labels)
    ∧ matchedClass [⟨"bug"⟩, ⟨"enhancement"⟩] = some .bug
    ∧ (classification competition [⟨"bug"⟩, ⟨"enhancement"⟩]).1 = competition.rewards.bug
    ∧ matchedClass [⟨"security"⟩, ⟨"Feature"⟩] = some .feature
    ∧ (classification competition [⟨"security"⟩, ⟨"Feature"⟩]).1 = competition.rewards.feature
    ∧ matchedClass [] = none
    ∧ (classification competition []).1 = 0 := by
  have hcongr : ∀ labels0 : List Label,
      (∀ n, n ∈ labels.map (fun l => l.name) ↔ n ∈ labels0.map (fun l => l.name)) →
        matchedClass labels0 = matchedClass labels := by
    intro labels0 h
    rw [matchedClass_eq_specClass, matchedClass_eq_specClass]
    exact specClass_congr _ _ h
  have e1 : matchedClass [⟨"bug"⟩, ⟨"enhancement"⟩] = some .bug := by decide
  have e2 : matchedClass [⟨"security"⟩, ⟨"Feature"⟩] = some .feature := by decide
  have e3 : matchedClass [] = none := by decide
  refine ⟨matchedClass_eq_specClass labels, ?_, ?_, ?_, ?_, e1, ?_, e2, ?_, e3, ?_⟩
  · exact matchedClass_eq_some_iff labels
  · exact matchedClass_eq_none_iff labels
  · intro labels0 h
    refine ⟨hcongr labels0 h, ?_⟩
    simp only [classification, hcongr labels0 h]
  · simp only [classification]
    cases matchedClass labels with
    | none => rfl
    | some k => cases k <;> rfl
  · simp only [classification, e1]
  · simp only [classification, e2]
  · simp only [classification, e3]

/-- C2: for an existing competition and an existing user who is neither in
`judges.judges` nor the lead judge, `addJudge` with type `judge` saves the
competition with the user id appended to the old judge list and with `leadJudge`
set to the first user of the new judge set sorted by xp descending; that user is
a member of the new judge set and no user of the judge set has a larger xp; the
saved document is what a later `findById` returns and what the 200 response
carries. -/
theorem addJudge_appends_and_elects (db : Db) (id : ObjectId) (username : String)
    (competition : Competition) (user : User)
    (hc : Competition.findById db id = some competition)
    (hu : User.findOne db username = some user)
    (hj : user._id ∉ competition.judges.judges)
    (hl : competition.judges.leadJudge ≠ some user._id) :
    ∃ lead rest,
      User.findSortedByXp db (competition.judges.judges ++ [user._id]) = lead :: rest
      ∧ addJudge db id username (some "judge") =
          ⟨Competition.save db
              { competition with
                judges := ⟨some lead._id, competition.judges.judges ++ [user._id]⟩ },
            [.saveCompetition
              { competition with
                judges := ⟨some lead._id, competition.judges.judges ++ [user._id]⟩ }],
            [⟨200, .competition
              { competition with
                judges := ⟨some lead._id, competition.judges.judges ++ [user._id]⟩ }⟩]⟩
      ∧ Competition.findById (addJudge db id username (some "judge")).db id =
          some { competition with
                 judges := ⟨some lead._id, competition.judges.judges ++ [user._id]⟩ }
      ∧ lead ∈ db.users
      ∧ lead._id ∈ competition.judges.judges ++ [user._id]
      ∧ ∀ u ∈ db.users, u._id ∈ competition.judges.judges ++ [user._id] → u.xp ≤ lead.xp := by
  have hmem : user ∈ User.findSortedByXp db (competition.judges.judges ++ [user._id]) := by
    rw [mem_findSortedByXp]
    exact ⟨findOne_mem db username user hu, by simp⟩
  cases hs : User.findSortedByXp db (competition.judges.judges ++ [user._id]) with
  | nil => simp [hs] at hmem
  | cons lead rest =>
    have hlead : lead ∈ User.findSortedByXp db (competition.judges.judges ++ [user._id]) := by
      simp [hs]
    rw [mem_findSortedByXp] at hlead
    have hout : addJudge db id username (some "judge") =
        ⟨Competition.save db
            { competition with
              judges := ⟨some lead._id, competition.judges.judges ++ [user._id]⟩ },
          [.saveCompetition
            { competition with
              judges := ⟨some lead._id, competition.judges.judges ++ [user._id]⟩ }],
          [⟨200, .competition
            { competition with
              judges := ⟨some lead._id, competition.judges.judges ++ [user._id]⟩ }⟩]⟩ := by
      have hj2 : ∀ x ∈ competition.judges.judges, ¬ x = user._id := by
        intro x hx hxe
        exact hj (hxe ▸ hx)
      simp [addJudge, hc, hu, hj, hj2, hl, recomputeLeadAndSave, hs]
    refine ⟨lead, rest, rfl, hout, ?_, hlead.1, hlead.2, ?_⟩
    · rw [hout]
      exact findById_save db id competition _ hc rfl
    · intro u hu1 hu2
      unfold User.findSortedByXp at hs
      refine head_sortByXpDesc_max _ lead rest hs u ?_
      rw [List.mem_filter]
      exact ⟨hu1, by simpa using hu2⟩

/-- Witness of C2: bob, not yet a judge of `soloCompetition`, is appended and,
having the larger xp, becomes the lead judge. -/
theorem addJudge_appends_and_elects_witness :
    Competition.findById soloDb 1 = some soloCompetition
    ∧ User.findOne soloDb "bob" = some bob
    ∧ ∃ lead rest,
      User.findSortedByXp soloDb (soloCompetition.judges.judges ++ [bob._id]) = lead :: rest
      ∧ addJudge soloDb 1 "bob" (some "judge") =
          ⟨Competition.save soloDb
              { soloCompetition with
                judges := ⟨some lead._id, soloCompetition.judges.judges ++ [bob._id]⟩ },
            [.saveCompetition
              { soloCompetition with
                judges := ⟨some lead._id, soloCompetition.judges.judges ++ [bob._id]⟩ }],
            [⟨200, .competition
              { soloCompetition with
                judges := ⟨some lead._id, soloCompetition.judges.judges ++ [bob._id]⟩ }⟩]⟩
      ∧ Competition.findById (addJudge soloDb 1 "bob" (some "judge")).db 1 =
          some { soloCompetition with
                 judges := ⟨some lead._id, soloCompetition.judges.judges ++ [bob._id]⟩ }
      ∧ lead ∈ soloDb.users
      ∧ lead._id ∈ soloCompetition.judges.judges ++ [bob._id]
      ∧ ∀ u ∈ soloDb.users,
          u._id ∈ soloCompetition.judges.judges ++ [bob._id] → u.xp ≤ lead.xp :=
  ⟨by decide, by decide,
    addJudge_appends_and_elects soloDb 1 "bob" soloCompetition bob (by decide) (by decide)
      (by decide) (by decide)⟩

/-- Witness of C4: two label lists with the same set of names, in another order
and with a repetition, are classified alike. -/
theorem classification_by_precedence_witness :
    matchedClass [⟨"Bug"⟩, ⟨"feature"⟩, ⟨"Bug"⟩] = matchedClass [⟨"feature"⟩, ⟨"Bug"⟩]
    ∧ classification soloCompetition [⟨"Bug"⟩, ⟨"feature"⟩, ⟨"Bug"⟩] =
        classification soloCompetition [⟨"feature"⟩, ⟨"Bug"⟩] :=
  (classification_by_precedence soloCompetition [⟨"feature"⟩, ⟨"Bug"⟩]).2.2.2.1
    [⟨"Bug"⟩, ⟨"feature"⟩, ⟨"Bug"⟩] (by intro n; simp; tauto)

/-- C1, at the input where it fails: in `soloDb` the competition satisfies the
lead-judge invariant (amy, xp 10, is the only judge and leads). `makeJudge` for
bob (xp 20) answers 200 and saves the judge list `[amy, bob]` with amy still the
lead, so the saved competition violates the invariant; `addJudge` on the same
input recomputes the lead to bob and the invariant holds. -/
theorem makeJudge_keeps_stale_lead :
    leadJudgeInv soloDb soloCompetition = true
    ∧ makeJudge featureWorld soloDb 1 "bob" =
        ⟨pairDb, [.saveCompetition pairCompetition, .putMembership "bob"],
          [⟨200, .competition pairCompetition⟩]⟩
    ∧ pairCompetition.judges = ⟨some amy._id, [amy._id, bob._id]⟩
    ∧ xpOf pairDb amy._id = some 10 ∧ xpOf pairDb bob._id = some 20
    ∧ leadJudgeInv pairDb pairCompetition = false
    ∧ Competition.findById (addJudge soloDb 1 "bob" (some "judge")).db 1 =
        some { soloCompetition with judges := ⟨some bob._id, [amy._id, bob._id]⟩ }
    ∧ leadJudgeInv (addJudge soloDb 1 "bob" (some "judge")).db
        { soloCompetition with judges := ⟨some bob._id, [amy._id, bob._id]⟩ } = true := by
  decide

/-- C3 as stated fails: bob is already a judge of `pairCompetition`, yet
`addJudge` with a type other than `judge` (here `lead`, or no type at all) does
not answer 400: it answers 200, saves the competition, and the saved lead judge
has changed from amy to bob. -/
theorem addJudge_other_type_skips_duplicate_check :
    bob._id ∈ pairCompetition.judges.judges
    ∧ Competition.findById pairDb 1 = some pairCompetition
    ∧ User.findOne pairDb "bob" = some bob
    ∧ (addJudge pairDb 1 "bob" (some "lead")).responses =
        [⟨200, .competition { pairCompetition with judges := ⟨some 11, [10, 11]⟩ }⟩]
    ∧ (addJudge pairDb 1 "bob" (some "lead")).trace =
        [.saveCompetition { pairCompetition with judges := ⟨some 11, [10, 11]⟩ }]
    ∧ (addJudge pairDb 1 "bob" (some "lead")).db ≠ pairDb
    ∧ addJudge pairDb 1 "bob" none = addJudge pairDb 1 "bob" (some "lead") := by
  decide

/-- C3, amended: for an existing competition and an existing user who is already
in `judges.judges` or already the lead judge, `addJudge` with type `judge` and
`makeJudge` answer 400 with the duplicate message, leave the database as it was
(so `judges.judges` and `leadJudge` are unchanged), and issue no save and no
team-membership request. -/
theorem duplicate_judge_rejected (w : World) (db : Db) (id : ObjectId) (username : String)
    (competition : Competition) (user : User)
    (hc : Competition.findById db id = some competition)
    (hu : User.findOne db username = some user)
    (hdup : user._id ∈ competition.judges.judges
      ∨ competition.judges.leadJudge = some user._id) :
    addJudge db id username (some "judge") =
        ⟨db, [], [⟨400, .message "User is already a judge or lead judge"⟩]⟩
    ∧ makeJudge w db id username =
        ⟨db, [], [⟨400, .message "User is already a reviewer or lead reviewer"⟩]⟩ := by
  have hcond : (competition.judges.judges.any (fun judge => judge == user._id)
      || competition.judges.leadJudge == some user._id) = true := by
    rcases hdup with h | h
    · simp [h]
    · simp [h]
  constructor
  · simp only [addJudge, hc, hu, hcond, if_true, reply]
  · simp only [makeJudge, hc, hu, hcond, if_true, reply]

/-- Witness of C3 as amended: bob is already a judge of `pairCompetition`. -/
theorem duplicate_judge_rejected_witness :
    Competition.findById pairDb 1 = some pairCompetition
    ∧ User.findOne pairDb "bob" = some bob
    ∧ bob._id ∈ pairCompetition.judges.judges
    ∧ addJudge pairDb 1 "bob" (some "judge") =
        ⟨pairDb, [], [⟨400, .message "User is already a judge or lead judge"⟩]⟩
    ∧ makeJudge featureWorld pairDb 1 "bob" =
        ⟨pairDb, [], [⟨400, .message "User is already a reviewer or lead reviewer"⟩]⟩ :=
  ⟨by decide, by decide, by decide,
    duplicate_judge_rejected featureWorld pairDb 1 "bob" pairCompetition bob (by decide)
      (by decide) (Or.inl (by decide))⟩

/-- C5: the update document computed by `approveAndMergePR` is, by class,
`totalEarnings + rewards.feature, Features + 1`; `totalEarnings + rewards.bug,
Bugs + 1`; `totalEarnings + rewards.optimization, Optimisations + 1`;
`totalEarnings + rewards.security` alone; and the empty document when no label
matches. At most one of `Features`, `Bugs`, `Optimisations` is incremented, and
by exactly 1. With no matching label a call that reaches the update leaves the
database as it was and answers 200. -/
theorem increments_per_class (competition : Competition) (labels : List Label) :
    (matchedClass labels = some .feature →
      (classification competition labels).2 =
        ⟨[("totalEarnings", competition.rewards.feature), ("Features", 1)]⟩)
    ∧ (matchedClass labels = some .bug →
      (classification competition labels).2 =
        ⟨[("totalEarnings", competition.rewards.bug), ("Bugs", 1)]⟩)
    ∧ (matchedClass labels = some .optimization →
      (classification competition labels).2 =
        ⟨[("totalEarnings", competition.rewards.optimization), ("Optimisations", 1)]⟩)
    ∧ (matchedClass labels = some .security →
      (classification competition labels).2 =
        ⟨[("totalEarnings", competition.rewards.security)]⟩)
    ∧ (matchedClass labels = none → classification competition labels = (0, ⟨[]⟩))
    ∧ (classCounters (classification competition labels).2).length ≤ 1
    ∧ (∀ e ∈ classCounters (classification competition labels).2, e.2 = 1)
    ∧ (∀ (w : World) (db : Db) (id : ObjectId) (prNumber pathname login : String)
        (author : User),
        Competition.findById db id = some competition →
        w.pathname competition.repositoryLink = .ok pathname →
        w.getPull (pathname.drop 1) prNumber = .ok ⟨labels, login⟩ →
        User.findOne db login = some author →
        w.mergePull (pathname.drop 1) prNumber = .ok () →
        matchedClass labels = none →
          (approveAndMergePR w db id prNumber).db = db
          ∧ (approveAndMergePR w db id prNumber).responses =
              [⟨200, .message "PR merged and user earnings updated"⟩]) := by
  refine ⟨?_, ?_, ?_, ?_, ?_, ?_, ?_, ?_⟩
  · intro h
    simp only [classification, h]
  · intro h
    simp only [classification, h]
  · intro h
    simp only [classification, h]
  · intro h
    simp only [classification, h]
  · intro h
    simp only [classification, h]
  · unfold classification
    cases matchedClass labels with
    | none => simp [classCounters]
    | some k => cases k <;> simp [classCounters]
  · unfold classification
    cases matchedClass labels with
    | none => simp [classCounters]
    | some k => cases k <;> simp [classCounters]
  · intro w db id prNumber pathname login author hc hp hg ha hm hn
    have hcl : classification competition labels = (0, ⟨[]⟩) := by
      simp only [classification, hn]
    simp only [approveAndMergePR, hc, hp, hg, ha, hm, hcl, reply, findByIdAndUpdate_empty,
      and_self]

/-- Witness of C5: the single label `Feature` gives the feature increments. -/
theorem increments_per_class_witness :
    matchedClass [⟨"Feature"⟩] = some .feature
    ∧ (classification soloCompetition [⟨"Feature"⟩]).2 =
        ⟨[("totalEarnings", soloCompetition.rewards.feature), ("Features", 1)]⟩ :=
  ⟨by decide, (increments_per_class soloCompetition [⟨"Feature"⟩]).1 (by decide)⟩

/-- C6 as stated fails: with `rewards.feature = 50`, a pull request labelled
`Feature` and an existing author, the call succeeds and the competition document
is the same before and after, so no total recorded on it has grown by 50. -/
theorem reconcile_leaves_competition_untouched :
    Competition.findById soloDb 1 = some soloCompetition
    ∧ soloCompetition.rewards.feature = 50
    ∧ (approveAndMergePR featureWorld soloDb 1 "7").responses =
        [⟨200, .message "PR merged and user earnings updated"⟩]
    ∧ Competition.findById (approveAndMergePR featureWorld soloDb 1 "7").db 1 =
        some soloCompetition
    ∧ ¬ ∃ total : Competition → Num, ∀ before after,
        Competition.findById soloDb 1 = some before →
        Competition.findById (approveAndMergePR featureWorld soloDb 1 "7").db 1 = some after →
          total after = total before + 50 := by
  have h1 : Competition.findById soloDb 1 = some soloCompetition := by decide
  have h2 : Competition.findById (approveAndMergePR featureWorld soloDb 1 "7").db 1 =
      some soloCompetition := by decide
  refine ⟨h1, by decide, by decide, h2, ?_⟩
  rintro ⟨total, h⟩
  have := h soloCompetition soloCompetition h1 h2
  linarith

/-- C6, amended: a successful `approveAndMergePR` call (competition found, pull
request fetched, author found, merge succeeded) applies the computed increments
to the user document of the author, through `User.findByIdAndUpdate`: its
`totalEarnings` grows by the reward of the class and the counter of the class,
where it has one, by 1, the rest of the document stays; every other user
document and every competition document, the reconciled one included, is
unchanged. User ids are taken to be unique. -/
theorem reconcile_credits_author (w : World) (db : Db) (id : ObjectId)
    (prNumber pathname : String) (competition : Competition) (pr : PullRequest) (author : User)
    (hc : Competition.findById db id = some competition)
    (hp : w.pathname competition.repositoryLink = .ok pathname)
    (hg : w.getPull (pathname.drop 1) prNumber = .ok pr)
    (ha : User.findOne db pr.login = some author)
    (hm : w.mergePull (pathname.drop 1) prNumber = .ok ())
    (hid : (db.users.map (fun u => u._id)).Nodup) :
    (approveAndMergePR w db id prNumber).responses =
        [⟨200, .message "PR merged and user earnings updated"⟩]
    ∧ (approveAndMergePR w db id prNumber).db.competitions = db.competitions
    ∧ (approveAndMergePR w db id prNumber).db.users =
        replaceFirst (fun u => u._id == author._id)
          (author.applyUpdate (classification competition pr.labels).2) db.users
    ∧ (approveAndMergePR w db id prNumber).db.users.find? (fun u => u._id == author._id) =
        some (author.applyUpdate (classification competition pr.labels).2)
    ∧ (∀ u ∈ db.users, u._id ≠ author._id →
        u ∈ (approveAndMergePR w db id prNumber).db.users)
    ∧ (author.applyUpdate (classification competition pr.labels).2).totalEarnings =
        author.totalEarnings + classReward competition (matchedClass pr.labels)
    ∧ (author.applyUpdate (classification competition pr.labels).2).Features =
        author.Features + (if matchedClass pr.labels = some .feature then 1 else 0)
    ∧ (author.applyUpdate (classification competition pr.labels).2).Bugs =
        author.Bugs + (if matchedClass pr.labels = some .bug then 1 else 0)
    ∧ (author.applyUpdate (classification competition pr.labels).2).Optimisations =
        author.Optimisations + (if matchedClass pr.labels = some .optimization then 1 else 0)
    ∧ (author.applyUpdate (classification competition pr.labels).2).xp = author.xp
    ∧ (author.applyUpdate (classification competition pr.labels).2).approvedSubmissions =
        author.approvedSubmissions := by
  have hfind : db.users.find? (fun u => u._id == author._id) = some author :=
    find_id_of_mem db.users author hid (findOne_mem db pr.login author ha)
  have hdb : (approveAndMergePR w db id prNumber).db =
      ⟨db.competitions, replaceFirst (fun u => u._id == author._id)
        (author.applyUpdate (classification competition pr.labels).2) db.users⟩ := by
    simp only [approveAndMergePR, hc, hp, hg, ha, hm, reply, User.findByIdAndUpdate, hfind]
  have happ := applyUpdate_classification competition pr.labels author
  have hrew : (classification competition pr.labels).1 =
      classReward competition (matchedClass pr.labels) := by
    unfold classification
    cases matchedClass pr.labels with
    | none => rfl
    | some k => cases k <;> rfl
  refine ⟨?_, ?_, ?_, ?_, ?_, ?_, happ.2.1, happ.2.2.1, happ.2.2.2.1, happ.2.2.2.2.2.2.1,
    happ.2.2.2.2.2.2.2⟩
  · simp only [approveAndMergePR, hc, hp, hg, ha, hm, reply]
  · rw [hdb]
  · rw [hdb]
  · rw [hdb]
    exact find_replaceFirst _ _ author db.users hfind (by simp [happ.2.2.2.2.1])
  · intro u hu hne
    rw [hdb]
    exact mem_replaceFirst_of_ne _ _ u db.users hu (by simpa using hne)
  · rw [happ.1, hrew]

/-- Witness of C6 as amended: the scenario of the spec. The author (bob) is
credited; the competition is not touched. -/
theorem reconcile_credits_author_witness :
    Competition.findById soloDb 1 = some soloCompetition
    ∧ User.findOne soloDb "bob" = some bob
    ∧ matchedClass [⟨"Feature"⟩] = some .feature
    ∧ (approveAndMergePR featureWorld soloDb 1 "7").db.competitions = soloDb.competitions
    ∧ (approveAndMergePR featureWorld soloDb 1 "7").db.users =
        replaceFirst (fun u => u._id == bob._id)
          (bob.applyUpdate (classification soloCompetition [⟨"Feature"⟩]).2) soloDb.users
    ∧ (bob.applyUpdate (classification soloCompetition [⟨"Feature"⟩]).2).totalEarnings =
        bob.totalEarnings + classReward soloCompetition (matchedClass [⟨"Feature"⟩]) :=
  have h := reconcile_credits_author featureWorld soloDb 1 "7" "/org/repo" soloCompetition
    ⟨[⟨"Feature"⟩], "bob"⟩ bob (by decide) rfl rfl (by decide) rfl (by decide)
  ⟨by decide, by decide, by decide, h.2.1, h.2.2.1, h.2.2.2.2.2.1⟩

/-- C7: once the competition is found, the pull request fetched and its author
found as a user, `approveAndMergePR` issues exactly one merge request, for that
pull request, whatever the labels are. It comes after the fetch and before the
update of the earnings: when the merge succeeds the trace is fetch, merge,
update; when the merge fails the trace is fetch, merge, nothing is updated, the
database is as it was and the answer is 500. -/
theorem exactly_one_merge (w : World) (db : Db) (id : ObjectId)
    (prNumber pathname : String) (competition : Competition) (pr : PullRequest) (author : User)
    (hc : Competition.findById db id = some competition)
    (hp : w.pathname competition.repositoryLink = .ok pathname)
    (hg : w.getPull (pathname.drop 1) prNumber = .ok pr)
    (ha : User.findOne db pr.login = some author) :
    (approveAndMergePR w db id prNumber).trace.filter Call.isMerge =
        [.mergePull (pathname.drop 1) prNumber]
    ∧ (approveAndMergePR w db id prNumber).trace.count (.mergePull (pathname.drop 1) prNumber) = 1
    ∧ (w.mergePull (pathname.drop 1) prNumber = .ok () →
        (approveAndMergePR w db id prNumber).trace =
          [.getPull (pathname.drop 1) prNumber, .mergePull (pathname.drop 1) prNumber,
            .updateUser author._id (classification competition pr.labels).2])
    ∧ (∀ msg, w.mergePull (pathname.drop 1) prNumber = .error msg →
        approveAndMergePR w db id prNumber =
          ⟨db, [.getPull (pathname.drop 1) prNumber, .mergePull (pathname.drop 1) prNumber],
            [⟨500, .message msg⟩]⟩) := by
  cases hm : w.mergePull (pathname.drop 1) prNumber with
  | error msg =>
    have hout : approveAndMergePR w db id prNumber =
        ⟨db, [.getPull (pathname.drop 1) prNumber, .mergePull (pathname.drop 1) prNumber],
          [⟨500, .message msg⟩]⟩ := by
      simp only [approveAndMergePR, hc, hp, hg, ha, hm, reply]
    refine ⟨?_, ?_, ?_, ?_⟩
    · rw [hout]
      simp [Call.isMerge]
    · rw [hout]
      simp
    · intro h
      cases h
    · intro msg0 h
      cases h
      exact hout
  | ok u =>
    have hout : (approveAndMergePR w db id prNumber).trace =
        [.getPull (pathname.drop 1) prNumber, .mergePull (pathname.drop 1) prNumber,
          .updateUser author._id (classification competition pr.labels).2] := by
      simp only [approveAndMergePR, hc, hp, hg, ha, hm, reply]
    refine ⟨?_, ?_, ?_, ?_⟩
    · rw [hout]
      simp [Call.isMerge]
    · rw [hout]
      simp
    · intro _
      exact hout
    · intro msg0 h
      cases h

/-- Witness of C7: one merge request when the provider merges, and one, with no
update after it, when the provider refuses. -/
theorem exactly_one_merge_witness :
    Competition.findById soloDb 1 = some soloCompetition
    ∧ User.findOne soloDb "bob" = some bob
    ∧ (approveAndMergePR featureWorld soloDb 1 "7").trace.filter Call.isMerge =
        [.mergePull ("/org/repo".drop 1) "7"]
    ∧ approveAndMergePR refusingWorld soloDb 1 "7" =
        ⟨soloDb, [.getPull ("/org/repo".drop 1) "7", .mergePull ("/org/repo".drop 1) "7"],
          [⟨500, .message "Pull Request is not mergeable"⟩]⟩ :=
  ⟨by decide, by decide,
    (exactly_one_merge featureWorld soloDb 1 "7" "/org/repo" soloCompetition
      ⟨[⟨"Feature"⟩], "bob"⟩ bob (by decide) rfl rfl (by decide)).1,
    (exactly_one_merge refusingWorld soloDb 1 "7" "/org/repo" soloCompetition
      ⟨[⟨"Feature"⟩], "bob"⟩ bob (by decide) rfl rfl (by decide)).2.2.2
      "Pull Request is not mergeable" rfl⟩

/-- The payout expression where the read of `rewardDistribution` yields an
object: `reward * rewardDistribution[k] / 100` with `k` = feature, optimization,
bugs for `Feature`, `Optimization`, `Bug`. -/
theorem payout_of_distribution (competition : Competition) (distribution : RewardDistribution) :
    payout competition (some distribution) (some "Feature") =
        .ok (competition.reward * distribution.feature / 100)
    ∧ payout competition (some distribution) (some "Optimization") =
        .ok (competition.reward * distribution.optimization / 100)
    ∧ payout competition (some distribution) (some "Bug") =
        .ok (competition.reward * distribution.bugs / 100) := by
  refine ⟨?_, ?_, ?_⟩ <;> simp [payout]

/-- C8, at the inputs where it fails: for every competition document the read
`competition.rewardDistribution` is `undefined`, so for each of the three
recognised types the payout expression throws instead of yielding
`reward * rewardDistribution[k] / 100`; `approveSubmission` for an existing
competition (reward 200) and an existing user then answers 500 and saves
nothing, for `Optimization`, `Bug` and `Feature` alike. The other types do yield
payout 0. -/
theorem approveSubmission_payout_throws (competition : Competition) :
    competition.rewardDistribution = none
    ∧ payout competition competition.rewardDistribution (some "Feature") =
        .error (undefinedRead "feature")
    ∧ payout competition competition.rewardDistribution (some "Optimization") =
        .error (undefinedRead "optimization")
    ∧ payout competition competition.rewardDistribution (some "Bug") =
        .error (undefinedRead "bugs")
    ∧ payout competition competition.rewardDistribution (some "Security") = .ok 0
    ∧ payout competition competition.rewardDistribution (some "feature") = .ok 0
    ∧ payout competition competition.rewardDistribution none = .ok 0
    ∧ Competition.findById soloDb 1 = some soloCompetition
    ∧ soloCompetition.reward = 200
    ∧ User.findOne soloDb "bob" = some bob
    ∧ approveSubmission soloDb 1 "bob" (some "Optimization") =
        ⟨soloDb, [], [⟨500, .message (undefinedRead "optimization")⟩]⟩
    ∧ approveSubmission soloDb 1 "bob" (some "Bug") =
        ⟨soloDb, [], [⟨500, .message (undefinedRead "bugs")⟩]⟩
    ∧ approveSubmission soloDb 1 "bob" (some "Feature") =
        ⟨soloDb, [], [⟨500, .message (undefinedRead "feature")⟩]⟩ := by
  refine ⟨rfl, ?_, ?_, ?_, ?_, ?_, ?_, by decide, by decide, by decide, by decide, by decide,
    by decide⟩
  · simp [payout, Competition.rewardDistribution]
  · simp [payout, Competition.rewardDistribution]
  · simp [payout, Competition.rewardDistribution]
  · simp [payout]
  · simp [payout]
  · simp [payout]

/-- C9: when `approveSubmission` answers 200 with payout `p`, the competition and
the user were found, one user document is saved, and it is the old one with
`totalEarnings` increased by `p` and one entry (the id of the competition, the
type of the request, `p`) appended to `approvedSubmissions`; the earlier entries
are kept in order, every other user document and every competition document is
unchanged, and the difference between `totalEarnings` and the sum of the
recorded payouts is the same before and after. -/
theorem approveSubmission_effect (db : Db) (id : ObjectId) (username : String)
    (submissionType : Option String) (text : String) (p : Num)
    (h : (approveSubmission db id username submissionType).responses =
      [⟨200, .approved text p⟩]) :
    ∃ competition user,
      Competition.findById db id = some competition
      ∧ User.findOne db username = some user
      ∧ payout competition competition.rewardDistribution submissionType = .ok p
      ∧ (approveSubmission db id username submissionType).trace =
          [.saveUser
            { user with
              totalEarnings := user.totalEarnings + p
              approvedSubmissions :=
                user.approvedSubmissions ++ [⟨competition._id, submissionType, p⟩] }]
      ∧ (approveSubmission db id username submissionType).db.users =
          replaceFirst (fun u => u._id == user._id)
            { user with
              totalEarnings := user.totalEarnings + p
              approvedSubmissions :=
                user.approvedSubmissions ++ [⟨competition._id, submissionType, p⟩] }
            db.users
      ∧ (approveSubmission db id username submissionType).db.competitions = db.competitions
      ∧ (∀ u ∈ db.users, u._id ≠ user._id →
          u ∈ (approveSubmission db id username submissionType).db.users)
      ∧ (user.totalEarnings + p)
            - payoutSum (user.approvedSubmissions ++ [⟨competition._id, submissionType, p⟩])
          = user.totalEarnings - payoutSum user.approvedSubmissions := by
  cases hc : Competition.findById db id with
  | none => simp [approveSubmission, hc, reply] at h
  | some competition =>
    cases hu : User.findOne db username with
    | none => simp [approveSubmission, hc, hu, reply] at h
    | some user =>
      cases hp : payout competition competition.rewardDistribution submissionType with
      | error msg => simp [approveSubmission, hc, hu, hp, reply] at h
      | ok q =>
        have hout : approveSubmission db id username submissionType =
            ⟨User.save db
                { user with
                  totalEarnings := user.totalEarnings + q
                  approvedSubmissions :=
                    user.approvedSubmissions ++ [⟨competition._id, submissionType, q⟩] },
              [.saveUser
                { user with
                  totalEarnings := user.totalEarnings + q
                  approvedSubmissions :=
                    user.approvedSubmissions ++ [⟨competition._id, submissionType, q⟩] }],
              [⟨200, .approved "Submission approved" q⟩]⟩ := by
          simp only [approveSubmission, hc, hu, hp, reply]
        rw [hout] at h
        simp only [List.cons.injEq, Response.mk.injEq, Body.approved.injEq, true_and,
          and_true] at h
        obtain ⟨_, rfl⟩ := h
        rw [hout]
        refine ⟨competition, user, rfl, rfl, hp, rfl, rfl, rfl, ?_, ?_⟩
        · intro u hmem hne
          exact mem_replaceFirst_of_ne _ _ u db.users hmem (by simpa using hne)
        · simp only [payoutSum, List.map_append, List.sum_append, List.map_cons, List.map_nil,
            List.sum_cons, List.sum_nil]
          ring

/-- Witness of C9: an approval of type `Security` succeeds with payout 0 and
still appends an entry. -/
theorem approveSubmission_effect_witness :
    (approveSubmission soloDb 1 "bob" (some "Security")).responses =
        [⟨200, .approved "Submission approved" 0⟩]
    ∧ ∃ competition user,
      Competition.findById soloDb 1 = some competition
      ∧ User.findOne soloDb "bob" = some user
      ∧ payout competition competition.rewardDistribution (some "Security") = .ok 0
      ∧ (approveSubmission soloDb 1 "bob" (some "Security")).trace =
          [.saveUser
            { user with
              totalEarnings := user.totalEarnings + 0
              approvedSubmissions :=
                user.approvedSubmissions ++ [⟨competition._id, some "Security", 0⟩] }]
      ∧ (approveSubmission soloDb 1 "bob" (some "Security")).db.users =
          replaceFirst (fun u => u._id == user._id)
            { user with
              totalEarnings := user.totalEarnings + 0
              approvedSubmissions :=
                user.approvedSubmissions ++ [⟨competition._id, some "Security", 0⟩] }
            soloDb.users
      ∧ (approveSubmission soloDb 1 "bob" (some "Security")).db.competitions =
          soloDb.competitions
      ∧ (∀ u ∈ soloDb.users, u._id ≠ user._id →
          u ∈ (approveSubmission soloDb 1 "bob" (some "Security")).db.users)
      ∧ (user.totalEarnings + 0)
            - payoutSum (user.approvedSubmissions ++ [⟨competition._id, some "Security", 0⟩])
          = user.totalEarnings - payoutSum user.approvedSubmissions :=
  ⟨by decide,
    approveSubmission_effect soloDb 1 "bob" (some "Security") "Submission approved" 0
      (by decide)⟩

/-- C10, at the input where it fails: `selectedCompetition` for an id no
competition has calls `res.json` three times: the 404 with its message, then
(no `return` follows the 404) the `OK` body with a null competition, still under
status 404, which Express refuses because a response was already written, and
then, from the `catch` block, a 500, which is refused as well, so that the
handler ends with an uncaught error. Nothing is saved and no provider request is
issued. -/
theorem selectedCompetition_notFound_falls_through :
    Competition.findById soloDb 2 = none
    ∧ selectedCompetition soloDb 2 =
        (⟨soloDb, [],
          [⟨404, .message "Competition not found"⟩, ⟨404, .ok none none []⟩,
            ⟨500, .message headersSent⟩]⟩, true)
    ∧ (selectedCompetition soloDb 2).1.responses.length = 3
    ∧ selectedCompetition soloDb 1 =
        (⟨soloDb, [], [⟨200, .ok (some soloCompetition) (some amy) [amy]⟩]⟩, false) := by
  decide

/-- The five other handlers on the not-found paths: one response, status 404, a
message body, the database as it was, and no save, merge or team-membership
call (`approveAndMergePR` has fetched the pull request when it looks the author
up). -/
theorem notFound_single_response (w : World) (db : Db) (id : ObjectId)
    (username prNumber status : String) (type submissionType : Option String) :
    (Competition.findById db id = none →
      addJudge db id username type = ⟨db, [], [⟨404, .message "Competition not found"⟩]⟩
      ∧ makeJudge w db id username = ⟨db, [], [⟨404, .message "Competition not found"⟩]⟩
      ∧ approveAndMergePR w db id prNumber = ⟨db, [], [⟨404, .message "Project not found"⟩]⟩
      ∧ updateCompetitionStatus db id status =
          ⟨db, [], [⟨404, .message "Competition not found"⟩]⟩
      ∧ approveSubmission db id username submissionType =
          ⟨db, [], [⟨404, .message "Competition or user not found"⟩]⟩)
    ∧ (User.findOne db username = none →
      approveSubmission db id username submissionType =
          ⟨db, [], [⟨404, .message "Competition or user not found"⟩]⟩
      ∧ ∀ competition, Competition.findById db id = some competition →
          addJudge db id username type = ⟨db, [], [⟨404, .message "User not found"⟩]⟩
          ∧ makeJudge w db id username = ⟨db, [], [⟨404, .message "User not found"⟩]⟩)
    ∧ (∀ competition pathname pr, Competition.findById db id = some competition →
        w.pathname competition.repositoryLink = .ok pathname →
        w.getPull (pathname.drop 1) prNumber = .ok pr →
        User.findOne db pr.login = none →
          approveAndMergePR w db id prNumber =
            ⟨db, [.getPull (pathname.drop 1) prNumber], [⟨404, .message "User not found"⟩]⟩) := by
  refine ⟨?_, ?_, ?_⟩
  · intro hc
    simp [addJudge, makeJudge, approveAndMergePR, updateCompetitionStatus, approveSubmission,
      hc, reply]
  · intro hu
    constructor
    · cases hc : Competition.findById db id <;> simp [approveSubmission, hc, hu, reply]
    · intro competition hc
      simp [addJudge, makeJudge, hc, hu, reply]
  · intro competition pathname pr hc hp hg hu
    simp [approveAndMergePR, hc, hp, hg, hu, reply]

end CodeCall
